import Mathlib

/-!
Shallow embedding of the books.toscrape.com crawler (`scraper.py`): the
retry/checkpoint/persistence pipeline, the numeric field parsers, and the
final CSV deduplication pass, together with theorems settling the frozen
claims about the crawler's specification.

Conventions of the embedding:
- Python strings become `String`; machine floats produced by `float()` on
  decimal literals are modelled exactly as `Rat` (the cleaned inputs are
  strings of digits and at most one dot, whose mathematical value is a
  rational).
- CSV rows read by `csv.DictReader` become association lists
  `List (String × String)`; a missing field is a failed lookup.
- Stateful I/O (HTTP fetches, file appends, checkpoint saves) is modelled
  by explicit oracles (`Site`, append-success flags) and an event trace.
- The unbounded `while next_url` loop is given explicit fuel; every
  theorem about it quantifies over the fuel.
-/

namespace Scraper

/-- Root listing URL, constant `BASE_URL` of `scraper.py`. -/
def BASE_URL : String := "http://books.toscrape.com/"

/-- Maximum fetch attempts per URL, constant `RETRY_ATTEMPTS` of `scraper.py`. -/
def RETRY_ATTEMPTS : Nat := 3

/-- Star-rating vocabulary, constant `RATING_MAP` of `scraper.py`. -/
def RATING_MAP : List (String × Nat) :=
  [("One", 1), ("Two", 2), ("Three", 3), ("Four", 4), ("Five", 5)]

/-! ## Price parsing (`parse_price`) -/

/-- Characters kept by the regex `[^0-9.]` substitution: digits and the dot. -/
def keepChar (c : Char) : Bool :=
  c.isDigit || c == '.'

/-- The `re.sub` cleaning step of `parse_price`: drop every character that is
not a digit or a dot. -/
def cleanPrice (s : String) : List Char :=
  s.toList.filter keepChar

/-- Numeric value of a digit string (most significant first). -/
def digitsToNat (cs : List Char) : Nat :=
  cs.foldl (fun acc c => acc * 10 + (c.toNat - '0'.toNat)) 0

/-- CPython `float()` restricted to strings made of digits and dots, the only
inputs `parse_price` can hand it after cleaning: at most one dot and at least
one digit, otherwise a `ValueError` (modelled as `none`). -/
def pyFloat (cs : List Char) : Option Rat :=
  if cs.all Char.isDigit then
    if cs.isEmpty then none else some (digitsToNat cs)
  else
    match cs.splitOn '.' with
    | [intPart, fracPart] =>
        if (intPart ++ fracPart).all Char.isDigit && !(intPart ++ fracPart).isEmpty then
          some ((digitsToNat intPart : Rat) + (digitsToNat fracPart : Rat) / ((10 : Rat) ^ fracPart.length))
        else none
    | _ => none

/-- The function `parse_price` of `scraper.py`: strip every character other
than digits and the dot, convert with `float()`, return `0.0` on an empty
cleaned string or on any conversion failure. -/
def parse_price (price_str : String) : Rat :=
  if (cleanPrice price_str).isEmpty then 0
  else
    match pyFloat (cleanPrice price_str) with
    | some q => q
    | none => 0

/-! ## Rating parsing (`parse_rating`) -/

/-- Python `str.strip()` with no argument: drop leading and trailing
whitespace. -/
def pyStrip (s : String) : String :=
  String.mk (((s.toList.dropWhile Char.isWhitespace).reverse.dropWhile Char.isWhitespace).reverse)

/-- Python `str.capitalize()`: first character uppercased, the rest
lowercased (ASCII suffices for the rating vocabulary). -/
def pyCapitalize (s : String) : String :=
  match s.toList with
  | [] => ""
  | c :: rest => String.mk (c.toUpper :: rest.map Char.toLower)

/-- The function `parse_rating` of `scraper.py`: walk the class list, skip
falsy entries, look the stripped class up in `RATING_MAP` directly and then
capitalized; `0` when nothing matches. -/
def parse_rating (classes : List String) : Nat :=
  match classes with
  | [] => 0
  | cls :: rest =>
      if cls = "" then parse_rating rest
      else
        let key := pyStrip cls
        match RATING_MAP.lookup key with
        | some v => v
        | none =>
            match RATING_MAP.lookup (pyCapitalize key) with
            | some v => v
            | none => parse_rating rest

/-! ## Fetching with retries (`retry_get`) -/

/-- Outcome of one raw `session.get`: a transport-level exception or a
response with a status code and a body. -/
inductive Attempt where
  | err : Attempt
  | resp (status : Nat) (body : String) : Attempt
deriving DecidableEq, Repr

/-- Loop body of `retry_get`: `attempts n` is what the n-th `session.get`
(1-based) would return; the result pairs the returned response (`none` after
exhaustion) with the number of attempts actually performed. -/
def retryGo (attempts : Nat → Attempt) (attempt : Nat) : Nat → Nat → Option (Nat × String) × Nat
  | 0, made => (none, made)
  | remaining + 1, made =>
      match attempts attempt with
      | .resp s b =>
          if s = 200 then (some (s, b), made + 1)
          else retryGo attempts (attempt + 1) remaining (made + 1)
      | .err => retryGo attempts (attempt + 1) remaining (made + 1)

/-- The function `retry_get` of `scraper.py`, instrumented with the attempt
count: it performs up to `RETRY_ATTEMPTS` GETs and returns the response on a
200 status, `none` after exhaustion; it never raises (it is total). -/
def retry_get (attempts : Nat → Attempt) : Option (Nat × String) × Nat :=
  retryGo attempts 1 RETRY_ATTEMPTS 0

/-- Failing attempt in the sense of the specification: a network-level error
or a response whose status is not 2xx. -/
def attemptFails (a : Attempt) : Bool :=
  match a with
  | .err => true
  | .resp s _ => if 200 ≤ s ∧ s ≤ 299 then false else true

/-- Failing attempt in the sense actually implemented by `retry_get`: a
network-level error or a response whose status is not exactly 200. -/
def attemptNon200 (a : Attempt) : Bool :=
  match a with
  | .err => true
  | .resp s _ => if s = 200 then false else true

/-! ## Checkpoint store (`load_checkpoint`, cursor resolution) -/

/-- Parsed content of `checkpoint.json`: the `next_url` field, with `none`
for an absent field or a JSON `null`. -/
structure Checkpoint where
  next_url : Option String
deriving DecidableEq, Repr

/-- Possible states of the checkpoint file on disk. -/
inductive CheckpointFile where
  | absent : CheckpointFile
  | unreadable : CheckpointFile
  | invalidJson : CheckpointFile
  | valid (c : Checkpoint) : CheckpointFile
deriving DecidableEq, Repr

/-- The function `load_checkpoint` of `scraper.py`: return the parsed record
when the file exists and parses, and the empty record (no `next_url`) when
the file is absent or any exception occurs while reading or parsing. -/
def load_checkpoint : CheckpointFile → Checkpoint
  | .valid c => c
  | _ => ⟨none⟩

/-- Start-of-crawl cursor resolution, line `next_url = checkpoint.get("next_url") or BASE_URL`
of `scrape`: a missing, `null` or empty (falsy) `next_url` resolves to `BASE_URL`. -/
def resolveStart (c : Checkpoint) : String :=
  match c.next_url with
  | some u => if u = "" then BASE_URL else u
  | none => BASE_URL

/-! ## Output store and deduplication (`deduplicate_csv`) -/

/-- One CSV row as seen through `csv.DictReader` / `csv.DictWriter`: an
association list from field name to cell text. -/
def Row : Type := List (String × String)

instance : DecidableEq Row := inferInstanceAs (DecidableEq (List (String × String)))

/-- Python `row.get(key_field)` on a `DictReader` row. -/
def rowGet (r : Row) (field : String) : Option String :=
  r.lookup field

/-- Truthiness test `if key:` on the looked-up key: present and non-empty. -/
def keyTruthy (k : Option String) : Bool :=
  match k with
  | some s => s ≠ ""
  | none => false

/-- The output CSV file: the header line and the data rows, in file order. -/
structure Store where
  header : List String
  rows : List Row
deriving DecidableEq

/-- Reading loop of `deduplicate_csv`: the insertion-ordered dict `seen`,
modelled as an association list extended at the tail exactly when the row's
key is truthy and not yet present. -/
def dedupSeen (key_field : String) (seen : List (String × Row)) : List Row → List (String × Row)
  | [] => seen
  | r :: rest =>
      match rowGet r key_field with
      | some key =>
          if key ≠ "" ∧ (seen.lookup key).isNone then
            dedupSeen key_field (seen ++ [(key, r)]) rest
          else
            dedupSeen key_field seen rest
      | none => dedupSeen key_field seen rest

/-- The function `deduplicate_csv` of `scraper.py`: read every row, keep the
first row per truthy key in the insertion-ordered dict `seen`, and rewrite
the file as the header plus `seen.values()`. -/
def deduplicate_csv (key_field : String) (fieldnames : List String) (s : Store) : Store :=
  ⟨fieldnames, (dedupSeen key_field [] s.rows).map Prod.snd⟩

/-- Spec-styled first-seen filter: keep a row exactly when its key is truthy
and no earlier row had the same key, preserving order. Used to characterise
`deduplicate_csv`. -/
def firstSeen (key_field : String) (seenKeys : List String) : List Row → List Row
  | [] => []
  | r :: rest =>
      match rowGet r key_field with
      | some key =>
          if key ≠ "" ∧ ¬ seenKeys.contains key then
            r :: firstSeen key_field (seenKeys ++ [key]) rest
          else
            firstSeen key_field seenKeys rest
      | none => firstSeen key_field seenKeys rest

/-! ## Crawl driver (`scrape`) -/

/-- One product as extracted from a listing page's `article.product_pod`:
title, relative detail link, and the optional price and rating tags. -/
structure PartialItem where
  title : String
  rel : String
  priceText : Option String
  ratingClasses : Option (List String)
deriving DecidableEq, Repr

/-- One successfully fetched and parsed listing page: its products and the
optional `li.next > a` href. -/
structure ListingPage where
  items : List PartialItem
  nextHref : Option String
deriving DecidableEq, Repr

/-- Oracle for the site as seen through `retry_get` plus BeautifulSoup:
`listing url` is the extracted listing page, or `none` when all retries for
`url` fail; `detail url` is the extracted review count of the product page
(possibly the sentinel `-1`), or `none` when all retries fail. -/
structure Site where
  listing : String → Option ListingPage
  detail : String → Option Int

/-- One output record, the dict appended to `rows_to_write` in `scrape`. -/
structure ProductRow where
  title : String
  price : Rat
  rating : Nat
  number_of_reviews : Int
  product_page_url : String
  scraped_at : String
deriving DecidableEq, Repr

/-- Per-product body of the extraction loop of `scrape`: price and rating
from the listing tags (with the documented defaults when a tag is absent),
review count from the detail page fetched through `retry_get` (`-1` when
that fetch permanently fails), and the detail URL resolved by `urljoin`,
passed in as the abstract library function `uj`. -/
def buildRow (uj : String → String → String) (site : Site) (pageUrl : String)
    (ts : String) (it : PartialItem) : ProductRow :=
  let product_url := uj pageUrl it.rel
  let price := match it.priceText with
    | some t => parse_price t
    | none => 0
  let rating := match it.ratingClasses with
    | some cs => parse_rating cs
    | none => 0
  let num_reviews := match site.detail product_url with
    | some n => n
    | none => -1
  ⟨it.title, price, rating, num_reviews, product_url, ts⟩

/-- The `rows_to_write` list gathered for one listing page, in encounter
order. -/
def processPage (uj : String → String → String) (site : Site) (pageUrl : String)
    (ts : String) (items : List PartialItem) : List ProductRow :=
  items.map (buildRow uj site pageUrl ts)

/-- Observable events of one crawl run, in program order: listing fetches,
page appends to the output CSV (with the success of the write), and
checkpoint saves. -/
inductive Ev where
  | fetch (url : String) (ok : Bool) : Ev
  | append (page : Nat) (rows : List ProductRow) (ok : Bool) : Ev
  | save (page : Nat) (cursor : Option String) : Ev
deriving DecidableEq, Repr

/-- The `while next_url` loop of `scrape`, as an event-trace function.
`clock n` is the `scraped_at` stamp of page `n`, `appendOk n` tells whether
the CSV append for page `n` raises, and `fuel` bounds the number of
iterations (every theorem quantifies over it). Each successful iteration
appends the page's rows before saving the checkpoint, exactly as the code
orders lines 225-250; a permanent listing-fetch failure breaks the loop. -/
def scrapeLoop (uj : String → String → String) (site : Site) (clock : Nat → String)
    (appendOk : Nat → Bool) : Nat → String → Nat → List Ev
  | 0, _, _ => []
  | fuel + 1, url, page =>
      match site.listing url with
      | none => [.fetch url false]
      | some lp =>
          match lp.nextHref with
          | some href =>
              .fetch url true ::
                .append (page + 1) (processPage uj site url (clock (page + 1)) lp.items) (appendOk (page + 1)) ::
                .save (page + 1) (some (uj url href)) ::
                scrapeLoop uj site clock appendOk fuel (uj url href) (page + 1)
          | none =>
              [.fetch url true,
               .append (page + 1) (processPage uj site url (clock (page + 1)) lp.items) (appendOk (page + 1)),
               .save (page + 1) none]

/-- The function `scrape` of `scraper.py` from checkpoint load to the end of
the crawl loop: resolve the start cursor from the checkpoint file and run
the loop. -/
def scrape (uj : String → String → String) (site : Site) (clock : Nat → String)
    (appendOk : Nat → Bool) (fuel : Nat) (file : CheckpointFile) : List Ev :=
  scrapeLoop uj site clock appendOk fuel (resolveStart (load_checkpoint file)) 0

/-- Number of listing pages fetched (attempted) in a trace. -/
def countFetches (tr : List Ev) : Nat :=
  (tr.filter (fun e => match e with | .fetch _ _ => true | _ => false)).length

/-- Test for the append event of page `n`. -/
def isAppendFor (n : Nat) (e : Ev) : Bool :=
  match e with
  | .append m _ _ => m == n
  | _ => false

/-! ## Concrete one-page site used for witnesses and counterexamples -/

/-- Concrete instantiation of the library `urljoin`: plain concatenation. -/
def ujConcat : String → String → String := fun b r => b ++ r

/-- Concrete timestamp oracle. -/
def clockConst : Nat → String := fun _ => "2026-10-12T00:00:00Z"

/-- Concrete site: the root listing page has no products and no next link;
every other URL, including every detail page, fails permanently. -/
def siteOnePage : Site :=
  { listing := fun u => if u = BASE_URL then some ⟨[], none⟩ else none
    detail := fun _ => none }

/-- Concrete listing item for the enrichment witness. -/
def itemW : PartialItem :=
  ⟨"T", "t.html", some "£5.00", some ["star-rating", "Three"]⟩

/-! ## Helper lemmas -/

theorem retryGo_all_fail (attempts : Nat → Attempt) :
    ∀ rem a made, (∀ i, a ≤ i → i < a + rem → attemptFails (attempts i) = true) →
      retryGo attempts a rem made = (none, made + rem) := by
  intro rem
  induction rem with
  | zero => intro a made _; simp [retryGo]
  | succ r ih =>
      intro a made h
      have ha : attemptFails (attempts a) = true := h a (le_refl a) (by omega)
      have htail : retryGo attempts (a + 1) r (made + 1) = (none, made + 1 + r) :=
        ih (a + 1) (made + 1) (fun i h1 h2 => h i (by omega) (by omega))
      cases hA : attempts a with
      | err =>
          rw [hA] at ha
          simp only [retryGo, hA, htail]
          exact congrArg _ (by omega)
      | resp s b =>
          rw [hA] at ha
          have hs : ¬ s = 200 := by
            intro hEq
            subst hEq
            simp [attemptFails] at ha
          simp only [retryGo, hA, if_neg hs, htail]
          exact congrArg _ (by omega)

theorem retryGo_congr (f g : Nat → Attempt) :
    ∀ rem a made, (∀ i, a ≤ i → i < a + rem → f i = g i) →
      retryGo f a rem made = retryGo g a rem made := by
  intro rem
  induction rem with
  | zero => intro a made _; rfl
  | succ r ih =>
      intro a made h
      have ha : f a = g a := h a (le_refl a) (by omega)
      have htail := ih (a + 1) (made + 1) (fun i h1 h2 => h i (by omega) (by omega))
      cases hA : g a with
      | err => simp only [retryGo, ha, hA, htail]
      | resp s b => simp only [retryGo, ha, hA, htail]

theorem retryGo_snd_ge (f : Nat → Attempt) :
    ∀ rem a made, made ≤ (retryGo f a rem made).2 := by
  intro rem
  induction rem with
  | zero => intro a made; simp [retryGo]
  | succ r ih =>
      intro a made
      cases hA : f a with
      | err => simp only [retryGo, hA]; exact le_trans (by omega) (ih (a + 1) (made + 1))
      | resp s b =>
          simp only [retryGo, hA]
          by_cases hs : s = 200
          · simp [hs]
          · simp only [if_neg hs]
            exact le_trans (by omega) (ih (a + 1) (made + 1))

theorem retryGo_snd_ge_succ (f : Nat → Attempt) :
    ∀ rem a made, 1 ≤ rem → made + 1 ≤ (retryGo f a rem made).2 := by
  intro rem
  cases rem with
  | zero => intro a made h; omega
  | succ r =>
      intro a made _
      cases hA : f a with
      | err => simp only [retryGo, hA]; exact retryGo_snd_ge f r (a + 1) (made + 1)
      | resp s b =>
          simp only [retryGo, hA]
          by_cases hs : s = 200
          · simp [hs]
          · simp only [if_neg hs]
            exact retryGo_snd_ge f r (a + 1) (made + 1)

theorem retryGo_succ (f : Nat → Attempt) (a r made : Nat) :
    retryGo f a (r + 1) made =
      match f a with
      | .resp s b => if s = 200 then (some (s, b), made + 1) else retryGo f (a + 1) r (made + 1)
      | .err => retryGo f (a + 1) r (made + 1) := rfl

theorem retryGo_success_at (f : Nat → Attempt) :
    ∀ rem a made i b, a ≤ i → i < a + rem →
      (∀ j, a ≤ j → j < i → attemptNon200 (f j) = true) →
      f i = Attempt.resp 200 b →
      retryGo f a rem made = (some (200, b), made + (i - a + 1)) := by
  intro rem
  induction rem with
  | zero => intro a made i b h1 h2 _ _; omega
  | succ r ih =>
      intro a made i b h1 h2 hfail hsucc
      by_cases hia : i = a
      · subst hia
        have e : retryGo f i (r + 1) made = (some (200, b), made + 1) := by
          rw [show r + 1 = r + 1 from rfl]
          show retryGo f i (r + 1) made = _
          rw [retryGo_succ f i r made, hsucc]
          simp
        rw [e]
        simp
      · have hlt : a < i := by omega
        have hfa : attemptNon200 (f a) = true := hfail a (le_refl a) hlt
        have htail : retryGo f (a + 1) r (made + 1) = (some (200, b), (made + 1) + (i - (a + 1) + 1)) :=
          ih (a + 1) (made + 1) i b (by omega) (by omega)
            (fun j hj1 hj2 => hfail j (by omega) hj2) hsucc
        have harith : (made + 1) + (i - (a + 1) + 1) = made + (i - a + 1) := by omega
        cases hA : f a with
        | err =>
            rw [retryGo_succ f a r made]
            simp only [hA, htail, harith]
        | resp s b0 =>
            have hs : ¬ s = 200 := by
              intro hEq
              subst hEq
              rw [hA] at hfa
              simp [attemptNon200] at hfa
            rw [retryGo_succ f a r made]
            simp only [hA]
            rw [if_neg hs, htail, harith]

theorem retryGo_fail_prefix_snd (f : Nat → Attempt) :
    ∀ kk rem a made, kk < rem →
      (∀ j, a ≤ j → j < a + kk → attemptNon200 (f j) = true) →
      made + kk + 1 ≤ (retryGo f a rem made).2 := by
  intro kk
  induction kk with
  | zero =>
      intro rem a made hlt _
      have h0 := retryGo_snd_ge_succ f rem a made (by omega)
      omega
  | succ k ihk =>
      intro rem a made hlt hfail
      cases rem with
      | zero => omega
      | succ r =>
          have hfa : attemptNon200 (f a) = true := hfail a (le_refl a) (by omega)
          have hrec : made + 1 + k + 1 ≤ (retryGo f (a + 1) r (made + 1)).2 :=
            ihk r (a + 1) (made + 1) (by omega)
              (fun j hj1 hj2 => hfail j (by omega) (by omega))
          cases hA : f a with
          | err =>
              rw [retryGo_succ f a r made]
              simp only [hA]
              omega
          | resp s b0 =>
              have hs : ¬ s = 200 := by
                intro hEq
                subst hEq
                rw [hA] at hfa
                simp [attemptNon200] at hfa
              rw [retryGo_succ f a r made]
              simp only [hA]
              rw [if_neg hs]
              omega

theorem lookup_isNone_iff (key : String) :
    ∀ seen : List (String × Row), (seen.lookup key).isNone = !((seen.map Prod.fst).contains key) := by
  intro seen
  induction seen with
  | nil => rfl
  | cons p t ih =>
      obtain ⟨a, b⟩ := p
      by_cases h : a = key
      · subst h; simp [List.lookup]
      · have h1 : (a == key) = false := by simpa using h
        have h2 : (key == a) = false := by simpa using (Ne.symm h)
        simp [List.lookup, h1, h2, ih]

theorem dedupSeen_eq_firstSeen (k : String) :
    ∀ (rows : List Row) (seen : List (String × Row)),
      (dedupSeen k seen rows).map Prod.snd = seen.map Prod.snd ++ firstSeen k (seen.map Prod.fst) rows := by
  intro rows
  induction rows with
  | nil => intro seen; simp [dedupSeen, firstSeen]
  | cons r rest ih =>
      intro seen
      cases hg : rowGet r k with
      | none => simp only [dedupSeen, firstSeen, hg]; exact ih seen
      | some key =>
          by_cases hk : key = ""
          · have c1 : ¬ (key ≠ "" ∧ (seen.lookup key).isNone = true) := fun h => h.1 hk
            have c2 : ¬ (key ≠ "" ∧ ¬ (seen.map Prod.fst).contains key = true) := fun h => h.1 hk
            simp only [dedupSeen, firstSeen, hg]
            rw [if_neg c1, if_neg c2]
            exact ih seen
          · by_cases hc : (seen.map Prod.fst).contains key = true
            · have c1 : ¬ (key ≠ "" ∧ (seen.lookup key).isNone = true) := by
                rintro ⟨-, h2⟩
                rw [lookup_isNone_iff key seen, hc] at h2
                simp at h2
              have c2 : ¬ (key ≠ "" ∧ ¬ (seen.map Prod.fst).contains key = true) :=
                fun h => h.2 hc
              simp only [dedupSeen, firstSeen, hg]
              rw [if_neg c1, if_neg c2]
              exact ih seen
            · have c1 : key ≠ "" ∧ (seen.lookup key).isNone = true :=
                ⟨hk, by rw [lookup_isNone_iff key seen, Bool.of_not_eq_true hc]; rfl⟩
              have c2 : key ≠ "" ∧ ¬ (seen.map Prod.fst).contains key = true := ⟨hk, hc⟩
              simp only [dedupSeen, firstSeen, hg]
              rw [if_pos c1, if_pos c2, ih (seen ++ [(key, r)])]
              simp [List.append_assoc]

theorem dedupSeen_nil (k : String) (rows : List Row) :
    (dedupSeen k [] rows).map Prod.snd = firstSeen k [] rows := by
  simpa using dedupSeen_eq_firstSeen k rows []

theorem firstSeen_idem (k : String) :
    ∀ (rows : List Row) (seen : List String),
      firstSeen k seen (firstSeen k seen rows) = firstSeen k seen rows := by
  intro rows
  induction rows with
  | nil => intro seen; rfl
  | cons r rest ih =>
      intro seen
      cases hg : rowGet r k with
      | none =>
          have e1 : firstSeen k seen (r :: rest) = firstSeen k seen rest := by
            simp only [firstSeen, hg]
          rw [e1, ih seen]
      | some key =>
          by_cases hc : key ≠ "" ∧ ¬ seen.contains key = true
          · have e1 : firstSeen k seen (r :: rest) = r :: firstSeen k (seen ++ [key]) rest := by
              simp only [firstSeen, hg]
              rw [if_pos hc]
            have e2 : ∀ t, firstSeen k seen (r :: t) = r :: firstSeen k (seen ++ [key]) t := by
              intro t
              simp only [firstSeen, hg]
              rw [if_pos hc]
            rw [e1, e2, ih (seen ++ [key])]
          · have e1 : firstSeen k seen (r :: rest) = firstSeen k seen rest := by
              simp only [firstSeen, hg]
              rw [if_neg hc]
            rw [e1, ih seen]

theorem mem_firstSeen_keyTruthy (k : String) :
    ∀ (rows : List Row) (seen : List String) (r : Row),
      r ∈ firstSeen k seen rows → keyTruthy (rowGet r k) = true := by
  intro rows
  induction rows with
  | nil => intro seen r h; simp [firstSeen] at h
  | cons r0 rest ih =>
      intro seen r h
      cases hg : rowGet r0 k with
      | none =>
          simp only [firstSeen, hg] at h
          exact ih seen r h
      | some key =>
          by_cases hc : key ≠ "" ∧ ¬ seen.contains key = true
          · simp only [firstSeen, hg] at h
            rw [if_pos hc] at h
            rcases List.mem_cons.mp h with h1 | h1
            · subst h1; simp [keyTruthy, hg, hc.1]
            · exact ih (seen ++ [key]) r h1
          · simp only [firstSeen, hg] at h
            rw [if_neg hc] at h
            exact ih seen r h

theorem deduplicate_csv_rows (k : String) (fn : List String) (s : Store) :
    (deduplicate_csv k fn s).rows = firstSeen k [] s.rows := by
  simp [deduplicate_csv, dedupSeen_nil]

/-! ## Claim theorems -/

/-- C3: a URL whose every GET attempt fails (network error or non-2xx
status) is attempted exactly `RETRY_ATTEMPTS = 3` times and then yields
`none`; the result depends on no attempt past the third (no fourth attempt
is made), and `retry_get` is a total function (it never raises). -/
theorem retry_exhaustion_three_attempts (attempts : Nat → Attempt)
    (h : ∀ i, 1 ≤ i → i ≤ RETRY_ATTEMPTS → attemptFails (attempts i) = true) :
    retry_get attempts = (none, RETRY_ATTEMPTS) ∧
    (∀ g : Nat → Attempt, (∀ i, 1 ≤ i → i ≤ RETRY_ATTEMPTS → attempts i = g i) →
      retry_get attempts = retry_get g) := by
  have hRA : RETRY_ATTEMPTS = 3 := rfl
  constructor
  · have h0 := retryGo_all_fail attempts RETRY_ATTEMPTS 1 0
      (fun i h1 h2 => h i h1 (by omega))
    simpa [retry_get] using h0
  · intro g hg
    exact retryGo_congr attempts g RETRY_ATTEMPTS 1 0 (fun i h1 h2 => hg i h1 (by omega))

/-- Witness for C3: a URL answering 404 on all three attempts. -/
theorem retry_exhaustion_three_attempts_witness :
    retry_get (fun _ => Attempt.resp 404 "") = (none, RETRY_ATTEMPTS) :=
  (retry_exhaustion_three_attempts (fun _ => Attempt.resp 404 "") (fun _ _ _ => rfl)).1

/-- C4 counterexample: a URL always answering 204 (a 2xx success for the
specification) is not returned immediately: the code retries it to
exhaustion because it accepts only status 200. -/
theorem non200_2xx_retried_counterexample :
    retry_get (fun _ => Attempt.resp 204 "") = (none, RETRY_ATTEMPTS) ∧
    (retry_get (fun _ => Attempt.resp 204 "")).2 ≠ 1 := by
  decide

/-- C4 amended, per attempt: for every attempt position i in 1..3, if
attempts 1..i-1 failed (network error or non-200 status) and attempt i has
status exactly 200, that response is returned immediately with exactly i
attempts made — no further attempt; and if attempts 1..i all fail with
i < 3, attempt i+1 is made. A non-200 2xx status counts as a failure. -/
theorem retry_success_only_status_200 (attempts : Nat → Attempt) :
    (∀ i b, 1 ≤ i → i ≤ RETRY_ATTEMPTS →
        (∀ j, 1 ≤ j → j < i → attemptNon200 (attempts j) = true) →
        attempts i = Attempt.resp 200 b →
        retry_get attempts = (some (200, b), i)) ∧
    (∀ i, 1 ≤ i → i < RETRY_ATTEMPTS →
        (∀ j, 1 ≤ j → j ≤ i → attemptNon200 (attempts j) = true) →
        i + 1 ≤ (retry_get attempts).2) := by
  have hRA : RETRY_ATTEMPTS = 3 := rfl
  constructor
  · intro i b h1 h2 hfail hsucc
    have h0 := retryGo_success_at attempts RETRY_ATTEMPTS 1 0 i b h1 (by omega)
      (fun j hj1 hj2 => hfail j hj1 hj2) hsucc
    have he : 0 + (i - 1 + 1) = i := by omega
    rw [retry_get, h0, he]
  · intro i h1 h2 hfail
    have h0 := retryGo_fail_prefix_snd attempts i RETRY_ATTEMPTS 1 0 (by omega)
      (fun j hj1 hj2 => hfail j hj1 (by omega))
    show i + 1 ≤ (retryGo attempts 1 RETRY_ATTEMPTS 0).2
    omega

/-- Witness for C4 amended: a network error on attempt 1 followed by a 200
on attempt 2 is returned immediately with exactly two attempts made. -/
theorem retry_success_only_status_200_witness :
    retry_get (fun n => if n = 1 then Attempt.err else Attempt.resp 200 "ok")
      = (some (200, "ok"), 2) :=
  (retry_success_only_status_200 (fun n => if n = 1 then Attempt.err else Attempt.resp 200 "ok")).1
    2 "ok" (by omega) (by decide)
    (fun j hj1 hj2 => by
      have hj : j = 1 := by omega
      subst hj
      rfl)
    rfl

/-- C7: price parsing keeps only digits and the decimal point, maps
`£51.77` and `Â£51.77` to 51.77, maps the empty string to 0, and returns
the default 0 instead of raising whenever the cleaned string does not
convert. -/
theorem price_parsing_tolerant :
    (∀ s c, c ∈ cleanPrice s → (c.isDigit || c == '.') = true) ∧
    parse_price "£51.77" = 5177 / 100 ∧
    parse_price "Â£51.77" = 5177 / 100 ∧
    parse_price "" = 0 ∧
    (∀ s, pyFloat (cleanPrice s) = none → parse_price s = 0) := by
  refine ⟨?_, ?_, ?_, rfl, ?_⟩
  · intro s c hc
    simp only [cleanPrice] at hc
    have h2 := List.of_mem_filter hc
    exact h2
  · show ((51 : Rat) + 77 / 10 ^ 2) = 5177 / 100
    norm_num
  · show ((51 : Rat) + 77 / 10 ^ 2) = 5177 / 100
    norm_num
  · intro s h
    by_cases he : (cleanPrice s).isEmpty <;> simp [parse_price, he, h]

/-- Witness for C7: the cleaned form of `1.2.3` has two dots, `float()`
fails, and `parse_price` returns the default. -/
theorem price_parsing_tolerant_witness : parse_price "1.2.3" = 0 :=
  price_parsing_tolerant.2.2.2.2 "1.2.3" rfl

/-- C8: the five ordinal labels map to 1..5 (in particular a class list
with `Three` yields 3), and a class list with no recognized label (neither
directly nor capitalized) yields 0. -/
theorem rating_mapping :
    parse_rating ["star-rating", "One"] = 1 ∧
    parse_rating ["star-rating", "Two"] = 2 ∧
    parse_rating ["star-rating", "Three"] = 3 ∧
    parse_rating ["star-rating", "Four"] = 4 ∧
    parse_rating ["star-rating", "Five"] = 5 ∧
    (∀ classes, (∀ c, c ∈ classes →
        RATING_MAP.lookup (pyStrip c) = none ∧
        RATING_MAP.lookup (pyCapitalize (pyStrip c)) = none) →
      parse_rating classes = 0) := by
  refine ⟨by decide, by decide, by decide, by decide, by decide, ?_⟩
  intro classes h
  induction classes with
  | nil => rfl
  | cons c rest ih =>
      have hc := h c (by simp)
      have htail : parse_rating rest = 0 := ih (fun x hx => h x (by simp [hx]))
      by_cases hempty : c = ""
      · simp [parse_rating, hempty, htail]
      · simp [parse_rating, hempty, hc.1, hc.2, htail]

/-- Witness for C8: an unrecognized label yields 0. -/
theorem rating_mapping_witness : parse_rating ["star-rating", "Zero"] = 0 :=
  rating_mapping.2.2.2.2.2 ["star-rating", "Zero"] (by decide)

/-- C10: loading an absent, unreadable or invalid checkpoint file yields the
empty record without raising, and a missing, null or empty `next_url`
resolves the start cursor to the root listing URL. -/
theorem checkpoint_load_fallback :
    load_checkpoint .absent = ⟨none⟩ ∧
    load_checkpoint .unreadable = ⟨none⟩ ∧
    load_checkpoint .invalidJson = ⟨none⟩ ∧
    resolveStart (load_checkpoint .absent) = BASE_URL ∧
    resolveStart (load_checkpoint .unreadable) = BASE_URL ∧
    resolveStart (load_checkpoint .invalidJson) = BASE_URL ∧
    resolveStart ⟨none⟩ = BASE_URL ∧
    resolveStart ⟨some ""⟩ = BASE_URL := by
  refine ⟨rfl, rfl, rfl, rfl, rfl, rfl, rfl, ?_⟩
  decide

/-- C1 counterexample: a store whose single row has an empty `key` value is
not left intact by deduplication — the first-seen row for the key value
(the empty string) is dropped, not retained. -/
theorem dedup_empty_key_dropped_counterexample :
    (deduplicate_csv "key" ["key", "v"]
        ⟨["key", "v"], [[("key", ""), ("v", "1")]]⟩).rows = [] ∧
    ([] : List Row) ≠ [[("key", ""), ("v", "1")]] := by
  decide

/-- C1 amended: deduplication rewrites the store as the given header plus
the first-seen row per nonempty present key value, in first-seen order (rows
whose key is missing or empty are dropped); the spec example with keys A, B,
A yields the first A row and the B row. -/
theorem dedup_retains_first_seen_nonempty_keys :
    (∀ (key_field : String) (fieldnames : List String) (s : Store),
        deduplicate_csv key_field fieldnames s = ⟨fieldnames, firstSeen key_field [] s.rows⟩) ∧
    deduplicate_csv "key" ["key", "v"]
        ⟨["key", "v"],
         [[("key", "A"), ("v", "1")], [("key", "B"), ("v", "2")], [("key", "A"), ("v", "3")]]⟩
      = ⟨["key", "v"], [[("key", "A"), ("v", "1")], [("key", "B"), ("v", "2")]]⟩ := by
  constructor
  · intro k fn s
    simp [deduplicate_csv, dedupSeen_nil]
  · decide

/-- C9: every row the deduplication pass writes back has a present,
nonempty key; a row with an empty key that was appended before dedup is
silently dropped. -/
theorem dedup_output_keys_nonempty :
    (∀ (key_field : String) (fieldnames : List String) (s : Store) (r : Row),
        r ∈ (deduplicate_csv key_field fieldnames s).rows →
        keyTruthy (rowGet r key_field) = true) ∧
    (deduplicate_csv "key" ["key", "v"]
        ⟨["key", "v"], [[("key", ""), ("v", "1")], [("key", "B"), ("v", "2")]]⟩).rows
      = [[("key", "B"), ("v", "2")]] := by
  constructor
  · intro k fn s r hr
    rw [deduplicate_csv_rows] at hr
    exact mem_firstSeen_keyTruthy k s.rows [] r hr
  · decide

/-- Witness for C9 at a concrete store. -/
theorem dedup_output_keys_nonempty_witness :
    keyTruthy (rowGet [(("key" : String), ("B" : String)), ("v", "2")] "key") = true :=
  dedup_output_keys_nonempty.1 "key" ["key", "v"]
    ⟨["key", "v"], [[("key", ""), ("v", "1")], [("key", "B"), ("v", "2")]]⟩
    [("key", "B"), ("v", "2")] (by decide)

/-- C5 counterexample: on a one-page site, a completed run ends with the
terminal checkpoint save (`next_url` null), yet re-running with that
terminal checkpoint fetches one page again instead of zero. -/
theorem terminal_checkpoint_refetches_counterexample :
    (scrape ujConcat siteOnePage clockConst (fun _ => true) 5 .absent).getLast?
      = some (.save 1 none) ∧
    countFetches (scrape ujConcat siteOnePage clockConst (fun _ => true) 5 (.valid ⟨none⟩)) = 1 ∧
    (1 : Nat) ≠ 0 := by
  refine ⟨rfl, rfl, by decide⟩

/-- C5 amended: re-running with the terminal checkpoint (null cursor)
resolves the start cursor to the root URL and behaves exactly like a fresh
crawl from page one, rather than fetching zero pages; re-running the dedup
pass on an already-deduplicated store is the identity, so the output store
is unchanged beyond the final dedup state. -/
theorem terminal_checkpoint_restart_and_dedup_idempotent :
    (∀ (uj : String → String → String) (site : Site) (clock : Nat → String)
        (appendOk : Nat → Bool) (fuel : Nat),
        scrape uj site clock appendOk fuel (.valid ⟨none⟩) =
          scrapeLoop uj site clock appendOk fuel BASE_URL 0) ∧
    (∀ (key_field : String) (fieldnames : List String) (s : Store),
        deduplicate_csv key_field fieldnames (deduplicate_csv key_field fieldnames s) =
          deduplicate_csv key_field fieldnames s) := by
  constructor
  · intro uj site clock appendOk fuel
    rfl
  · intro k fn s
    have h1 : (deduplicate_csv k fn s).rows = firstSeen k [] s.rows :=
      deduplicate_csv_rows k fn s
    have h2 : (deduplicate_csv k fn (deduplicate_csv k fn s)).rows
        = firstSeen k [] (firstSeen k [] s.rows) := by
      rw [deduplicate_csv_rows, h1]
    have h3 : (deduplicate_csv k fn (deduplicate_csv k fn s)).header = fn := rfl
    have h4 : (deduplicate_csv k fn s).header = fn := rfl
    cases hd : deduplicate_csv k fn (deduplicate_csv k fn s) with
    | mk hdr rows =>
        cases he : deduplicate_csv k fn s with
        | mk hdr2 rows2 =>
            rw [hd] at h2 h3
            rw [he] at h1 h4
            simp only at h2 h3 h1 h4
            subst h3 h4
            congr 1
            rw [h2, h1, firstSeen_idem]

/-- C6: an item whose detail-page fetch permanently fails still yields a row
for its page, with the unknown sentinel -1 for the review count and title,
price, rating and product URL populated from the listing page; every item
of the page yields a row (one failure never aborts the page). -/
theorem enrichment_failure_keeps_item (uj : String → String → String) (site : Site)
    (pageUrl ts : String) (items : List PartialItem) (it : PartialItem)
    (hmem : it ∈ items) (hfail : site.detail (uj pageUrl it.rel) = none) :
    buildRow uj site pageUrl ts it ∈ processPage uj site pageUrl ts items ∧
    (buildRow uj site pageUrl ts it).number_of_reviews = -1 ∧
    (buildRow uj site pageUrl ts it).title = it.title ∧
    (buildRow uj site pageUrl ts it).product_page_url = uj pageUrl it.rel ∧
    (∀ pt, it.priceText = some pt → (buildRow uj site pageUrl ts it).price = parse_price pt) ∧
    (∀ cs, it.ratingClasses = some cs → (buildRow uj site pageUrl ts it).rating = parse_rating cs) ∧
    (processPage uj site pageUrl ts items).length = items.length := by
  refine ⟨List.mem_map_of_mem _ hmem, ?_, rfl, rfl, ?_, ?_, by simp [processPage]⟩
  · simp [buildRow, hfail]
  · intro pt hpt
    simp [buildRow, hpt]
  · intro cs hcs
    simp [buildRow, hcs]

/-- Witness for C6: a concrete item on the one-page site, whose detail fetch
fails, keeps the sentinel -1. -/
theorem enrichment_failure_keeps_item_witness :
    (buildRow ujConcat siteOnePage BASE_URL "ts" itemW).number_of_reviews = -1 :=
  (enrichment_failure_keeps_item ujConcat siteOnePage BASE_URL "ts" [itemW] itemW
    (by simp) rfl).2.1

/-- C2: in every trace of the crawl loop, a checkpoint save for a page is
preceded by the append of that page's rows — the append (successful or not)
completes before the save is invoked. -/
theorem append_completes_before_checkpoint_save (uj : String → String → String)
    (site : Site) (clock : Nat → String) (appendOk : Nat → Bool) :
    ∀ (fuel : Nat) (url : String) (page : Nat) (pre : List Ev) (n : Nat)
      (cur : Option String) (post : List Ev),
      scrapeLoop uj site clock appendOk fuel url page = pre ++ Ev.save n cur :: post →
      ∃ e, e ∈ pre ∧ isAppendFor n e = true := by
  intro fuel
  induction fuel with
  | zero =>
      intro url page pre n cur post h
      simp only [scrapeLoop] at h
      cases pre <;> simp_all
  | succ f ih =>
      intro url page pre n cur post h
      simp only [scrapeLoop] at h
      cases hl : site.listing url with
      | none =>
          rw [hl] at h
          simp only at h
          rcases pre with _ | ⟨e1, pre⟩ <;> simp_all
      | some lp =>
          rw [hl] at h
          simp only at h
          cases hn : lp.nextHref with
          | some href =>
              rw [hn] at h
              simp only at h
              rcases pre with _ | ⟨e1, _ | ⟨e2, _ | ⟨e3, pre⟩⟩⟩
              · simp at h
              · simp at h
              · simp only [List.cons_append, List.nil_append, List.cons.injEq] at h
                obtain ⟨h1, h2, h3, h4⟩ := h
                obtain ⟨h3a, h3b⟩ := Ev.save.inj h3.symm
                refine ⟨e2, by simp, ?_⟩
                rw [← h2, isAppendFor, h3a]
                simp
              · simp only [List.cons_append, List.cons.injEq] at h
                obtain ⟨h1, h2, h3, h4⟩ := h
                obtain ⟨e, he, ha⟩ := ih _ _ pre n cur post h4
                exact ⟨e, by simp [he], ha⟩
          | none =>
              rw [hn] at h
              simp only at h
              rcases pre with _ | ⟨e1, _ | ⟨e2, _ | ⟨e3, pre⟩⟩⟩
              · simp at h
              · simp at h
              · simp only [List.cons_append, List.nil_append, List.cons.injEq] at h
                obtain ⟨h1, h2, h3, h4⟩ := h
                obtain ⟨h3a, h3b⟩ := Ev.save.inj h3.symm
                refine ⟨e2, by simp, ?_⟩
                rw [← h2, isAppendFor, h3a]
                simp
              · simp only [List.cons_append, List.cons.injEq] at h
                obtain ⟨h1, h2, h3, h4⟩ := h
                cases pre <;> simp_all

/-- Witness for C2: on the one-page site with a failing append, the save of
page 1 is preceded in the trace by the (failed) append of page 1. -/
theorem append_completes_before_checkpoint_save_witness :
    ∃ e, e ∈ [Ev.fetch BASE_URL true, Ev.append 1 [] false] ∧ isAppendFor 1 e = true :=
  append_completes_before_checkpoint_save ujConcat siteOnePage clockConst (fun _ => false)
    1 BASE_URL 0 [Ev.fetch BASE_URL true, Ev.append 1 [] false] 1 none [] rfl

end Scraper
